import Mathlib

/-!
Verification of the data steps of src/neuraxle/steps/data.py
(DataShuffler, EpochRepeater, TrainShuffled, ZipData) against a shallow
embedding.  Stateful Python methods become explicit state passing;
fallible code returns Option; CPython's Mersenne-Twister PRNG is embedded
as plain Nat arithmetic mod 2^32.
-/

set_option maxRecDepth 100000

namespace Neuraxle

/-! ## DataShuffler state (constructor of src/neuraxle/steps/data.py, DataShuffler.__init__) -/

/-- State of a DataShuffler instance: the stored seed and the
increment_seed_after_each_fit flag. -/
structure DataShuffler where
  seed : Nat
  increment_seed_after_each_fit : Bool
  deriving DecidableEq

/-- DataShuffler.__init__: a None seed is replaced by 42 before being stored.
The Python default for increment_seed_after_each_fit is True; callers of
this embedding pass the flag explicitly. -/
def DataShuffler.init (seed : Option Nat) (increment_seed_after_each_fit : Bool) :
    DataShuffler :=
  match seed with
  | none => { seed := 42, increment_seed_after_each_fit := increment_seed_after_each_fit }
  | some s => { seed := s, increment_seed_after_each_fit := increment_seed_after_each_fit }

/-! ## EpochRepeater (src/neuraxle/steps/data.py)

The wrapped step is kept abstract: a value of an arbitrary type W together
with the fit / fit_transform functions the loop calls on it.  is_train is
the train/test-mode flag carried by the surrounding framework's BaseStep
(modelled from the spec's glossary entry for the execution context's
train/test mode). -/

/-- State of an EpochRepeater instance over an abstract wrapped step W. -/
structure EpochRepeater (W : Type) where
  wrapped : W
  epochs : Nat
  fit_only : Bool
  repeat_in_test_mode : Bool
  is_train : Bool
  deriving DecidableEq

/-- EpochRepeater._should_repeat_fit:
return self.is_train or not self.is_train and self.repeat_in_test_mode. -/
def EpochRepeater.should_repeat_fit {W : Type} (s : EpochRepeater W) : Bool :=
  s.is_train || (!s.is_train && s.repeat_in_test_mode)

/-- EpochRepeater._get_epochs: epochs = self.epochs;
if self._should_repeat_fit(): epochs = 1; return epochs. -/
def EpochRepeater.get_epochs {W : Type} (s : EpochRepeater W) : Nat :=
  if s.should_repeat_fit then 1 else s.epochs

/-- The loop "for _ in range(n): self.wrapped = self.wrapped.fit(di, eo)". -/
def fitLoop {W I O : Type} (f : W → I → O → W) (di : I) (eo : O) : Nat → W → W
  | 0, w => w
  | n + 1, w => fitLoop f di eo n (f w di eo)

/-- EpochRepeater.fit: epochs = self._get_epochs();
for _ in range(epochs): self.wrapped = self.wrapped.fit(di, eo); return self. -/
def EpochRepeater.fit {W I O : Type} (f : W → I → O → W) (di : I) (eo : O)
    (s : EpochRepeater W) : EpochRepeater W :=
  { s with wrapped := fitLoop f di eo s.get_epochs s.wrapped }

/-- EpochRepeater.fit_transform: if not self.fit_only:
epochs = self._get_epochs(); for _ in range(epochs): self.wrapped = self.wrapped.fit(...);
then self.wrapped, outputs = self.wrapped.fit_transform(...); return self, outputs.
ft is the wrapped step's fit_transform. -/
def EpochRepeater.fit_transform {W I O T : Type} (f : W → I → O → W)
    (ft : W → I → O → W × T) (di : I) (eo : O) (s : EpochRepeater W) :
    EpochRepeater W × T :=
  let w1 := if s.fit_only then s.wrapped else fitLoop f di eo s.get_epochs s.wrapped
  let r := ft w1 di eo
  ({ s with wrapped := r.1 }, r.2)

/-- The loop "for _ in range(n): self.wrapped = self.wrapped.handle_fit(dc.copy(), context)". -/
def handleFitLoop {W D C : Type} (hf : W → D → C → W) (copy : D → D) (dc : D) (ctx : C) :
    Nat → W → W
  | 0, w => w
  | n + 1, w => handleFitLoop hf copy dc ctx n (hf w (copy dc) ctx)

/-- EpochRepeater._fit_transform_data_container: if not self.fit_only:
for _ in range(self.epochs - 1): self.wrapped = self.wrapped.handle_fit(dc.copy(), context);
then self.wrapped, dc = self.wrapped.handle_fit_transform(dc, context); return self, dc.
hf / hft are the wrapped step's handle_fit / handle_fit_transform, copy is
DataContainer.copy. -/
def EpochRepeater.fit_transform_data_container {W D C : Type} (hf : W → D → C → W)
    (hft : W → D → C → W × D) (copy : D → D) (dc : D) (ctx : C) (s : EpochRepeater W) :
    EpochRepeater W × D :=
  let w1 := if s.fit_only then s.wrapped else handleFitLoop hf copy dc ctx (s.epochs - 1) s.wrapped
  let r := hft w1 dc ctx
  ({ s with wrapped := r.1 }, r.2)

/-! ## TrainShuffled (src/neuraxle/steps/data.py) and claim C7 -/

/-- Modelled from the spec: a step of the surrounding pipeline framework is
either the (opaque) wrapped step, a DataShuffler, or a TrainOnlyWrapper
around another step; Pipeline and TrainOnlyWrapper themselves live outside
this fragment ("a fixed two-stage composition (shuffle step + wrapped
step)"). -/
inductive PipeStep (α : Type) where
  | wrappedStep (w : α)
  | dataShufflerStep (s : DataShuffler)
  | trainOnlyWrapper (inner : PipeStep α)
  deriving DecidableEq

/-- Modelled from the spec: a Pipeline is determined by the list of its
steps. -/
structure Pipeline (α : Type) where
  steps : List (PipeStep α)
  deriving DecidableEq

/-- TrainShuffled.__init__: Pipeline.__init__(self,
[TrainOnlyWrapper(DataShuffler(seed=seed)), wrapped]).  DataShuffler is
constructed with its default increment_seed_after_each_fit=True. -/
def TrainShuffled {α : Type} (wrapped : α) (seed : Option Nat) : Pipeline α :=
  { steps := [PipeStep.trainOnlyWrapper
                (PipeStep.dataShufflerStep (DataShuffler.init seed true)),
              PipeStep.wrappedStep wrapped] }

/-! ## CPython's Mersenne-Twister PRNG (random.Random), embedded over Nat

DataShuffler.transform calls random.Random(self.seed).shuffle(data).  The
generator below is a direct translation of CPython's _randommodule.c
(MT19937 with uint32 arithmetic, seeded through init_by_array) and of
random.shuffle / Random._randbelow_with_getrandbits; all 32-bit machine
arithmetic is Nat arithmetic mod 4294967296. -/

/-- Force a Nat to its literal before returning the second argument:
semantically the identity in its second argument, used only to keep the
kernel's reduction of the generator loops shallow (each 32-bit word is
evaluated at the loop step that produces it instead of accumulating a chain
of pending arithmetic). -/
def strictNat {β : Type} : Nat → β → β
  | 0, b => b
  | _ + 1, b => b

/-- Mersenne-Twister state: 624 32-bit words and the output index mti. -/
structure PyRandom where
  mt : List Nat
  mti : Nat
  deriving DecidableEq

/-- init_genrand's fill loop: mt[i] = (1812433253 * (mt[i-1] ^ (mt[i-1] >> 30)) + i),
as uint32; the accumulator holds the words generated so far, newest first. -/
def initGenrandLoop : Nat → Nat → Nat → List Nat → List Nat
  | 0, _, _, acc => acc.reverse
  | fuel + 1, i, prev, acc =>
      let x := (1812433253 * (prev ^^^ (prev >>> 30)) + i) % 4294967296
      strictNat x (initGenrandLoop fuel (i + 1) x (x :: acc))

/-- init_genrand(s): mt[0] = s, then the fill loop for i = 1..623. -/
def init_genrand (s : Nat) : List Nat :=
  initGenrandLoop 623 1 (s % 4294967296) [s % 4294967296]

/-- First loop of init_by_array: k = max(624, key length) iterations of
mt[i] = (mt[i] ^ ((mt[i-1] ^ (mt[i-1] >> 30)) * 1664525)) + key[j] + j,
with i wrapping to 1 (after mt[0] = mt[623]) and j cycling through the key.
The purely sequential in-place pass is rendered as a zipper: done holds
positions i-1, i-2, ..., 0 (so its head is mt[i-1]) and rest holds positions
i, ..., 623; on the wraparound the head of done is mt[623], which becomes the
new mt[0].  Returns (i, j, done, rest). -/
def initByArrayLoop1 (key : List Nat) :
    Nat → Nat → Nat → List Nat → List Nat → Nat × Nat × List Nat × List Nat
  | 0, i, j, done, rest => (i, j, done, rest)
  | k + 1, i, j, done, rest =>
      let prev := done.headD 0
      let cur := rest.headD 0
      let x := ((cur ^^^ (((prev ^^^ (prev >>> 30)) * 1664525) % 4294967296))
                  + key.getD j 0 + j) % 4294967296
      let j1 := if j + 1 ≥ key.length then 0 else j + 1
      strictNat x
        (if i + 1 ≥ 624 then
          initByArrayLoop1 key k 1 j1 [x] ((x :: done).reverse.tailD [])
        else
          initByArrayLoop1 key k (i + 1) j1 (x :: done) (rest.tailD []))

/-- Second loop of init_by_array: 623 iterations of
mt[i] = (mt[i] ^ ((mt[i-1] ^ (mt[i-1] >> 30)) * 1566083941)) - i,
with the same wraparound of i, on the same zipper representation.
Returns (done, rest). -/
def initByArrayLoop2 : Nat → Nat → List Nat → List Nat → List Nat × List Nat
  | 0, _, done, rest => (done, rest)
  | k + 1, i, done, rest =>
      let prev := done.headD 0
      let cur := rest.headD 0
      let x := ((cur ^^^ (((prev ^^^ (prev >>> 30)) * 1566083941) % 4294967296))
                  + 4294967296 - (i % 4294967296)) % 4294967296
      strictNat x
        (if i + 1 ≥ 624 then
          initByArrayLoop2 k 1 [x] ((x :: done).reverse.tailD [])
        else
          initByArrayLoop2 k (i + 1) (x :: done) (rest.tailD []))

/-- init_by_array(key): seed with init_genrand(19650218), run the two mixing
loops, then force mt[0] = 0x80000000.  The zipper (done, rest) left by the
second loop is stitched back into the array positions 0..623 before mt[0] is
overwritten. -/
def init_by_array (key : List Nat) : List Nat :=
  let mt0 := init_genrand 19650218
  match initByArrayLoop1 key (max 624 key.length) 1 0 [mt0.headD 0] (mt0.tailD []) with
  | (i1, _, done1, rest1) =>
    match initByArrayLoop2 623 i1 done1 rest1 with
    | (done2, rest2) => 2147483648 :: ((done2.reverse.tailD []) ++ rest2)

/-- The key CPython's random_seed derives from an int seed: its absolute
value split into 32-bit words, little-endian (at least one word). -/
def seedKeyAux : Nat → Nat → List Nat
  | 0, _ => []
  | fuel + 1, n => if n = 0 then [] else (n % 4294967296) :: seedKeyAux fuel (n / 4294967296)

/-- Key of a (nonnegative) integer seed. -/
def seedKey (n : Nat) : List Nat :=
  if n = 0 then [0] else seedKeyAux 128 n

/-- random.Random(seed): seed the state; mti = 624 forces a twist on the
first extraction. -/
def mkPyRandom (seed : Nat) : PyRandom :=
  { mt := init_by_array (seedKey seed), mti := 624 }

/-- One update of the twist: with y = (mt[kk] & 0x80000000) | (mt[kk+1 mod 624] & 0x7fffffff),
the new mt[kk] is mt[(kk+397) mod 624] ^ (y >> 1) ^ (0x9908b0df if y is odd else 0). -/
def twistStep (cur next src : Nat) : Nat :=
  let y := (cur &&& 2147483648) ||| (next &&& 2147483647)
  src ^^^ (y >>> 1) ^^^ (if y % 2 = 1 then 2567483615 else 0)

/-- Pop from a functional FIFO queue (front, back): elements leave in the
order they were pushed onto the back. -/
def queuePop (f b : List Nat) : Nat × List Nat × List Nat :=
  match f with
  | x :: f1 => (x, f1, b)
  | [] =>
    match b.reverse with
    | x :: f1 => (x, f1, [])
    | [] => (0, [], [])

/-- The in-place twist pass over all 624 words, kk = 0..623 in order,
rendered sequentially: rest holds the old words from position kk on, done
the already-produced new words (newest first).  The source stream
mt[(kk+397) mod 624] is, in order, the old words 397..623 followed by the
new words 0..396; it is supplied by the queue (srcF, srcB) initialised with
the old words from position 397, each freshly produced word being pushed.
The final position kk = 623 reads mt[(623+1) mod 624] = mt[0], which by then
is the new word 0 (the last element of done). -/
def twistAux : Nat → List Nat → List Nat → List Nat → List Nat → List Nat
  | 0, rest, done, srcF, srcB =>
      let cur := rest.headD 0
      let next := done.getLastD 0
      let src := (queuePop srcF srcB).1
      (twistStep cur next src :: done).reverse
  | k + 1, rest, done, srcF, srcB =>
      let cur := rest.headD 0
      let next := (rest.tailD []).headD 0
      let p := queuePop srcF srcB
      let x := twistStep cur next p.1
      strictNat x (twistAux k (rest.tailD []) (x :: done) p.2.1 (x :: p.2.2))

/-- The full twist of the 624-word state. -/
def mtTwist (mt : List Nat) : List Nat := twistAux 623 mt [] (mt.drop 397) []

/-- MT19937 output tempering. -/
def temper (y0 : Nat) : Nat :=
  let y1 := y0 ^^^ (y0 >>> 11)
  let y2 := y1 ^^^ ((y1 <<< 7) &&& 2636928640)
  let y3 := y2 ^^^ ((y2 <<< 15) &&& 4022730752)
  y3 ^^^ (y3 >>> 18)

/-- genrand_uint32: twist all 624 words when mti reaches 624, then temper and
emit the word at mti. -/
def genrandUInt32 (g : PyRandom) : Nat × PyRandom :=
  let g1 := if g.mti ≥ 624 then { mt := mtTwist g.mt, mti := 0 } else g
  (temper (g1.mt.getD g1.mti 0), { g1 with mti := g1.mti + 1 })

/-- getrandbits(k) for k ≤ 32 (the only case random.shuffle needs):
one 32-bit extraction shifted down to k bits. -/
def getrandbits (k : Nat) (g : PyRandom) : Nat × PyRandom :=
  let r := genrandUInt32 g
  (r.1 >>> (32 - k), r.2)

/-- int.bit_length, by fuel on the number of halvings (enough fuel for any
index arising from a list length). -/
def bitLengthAux : Nat → Nat → Nat
  | 0, _ => 0
  | fuel + 1, n => if n = 0 then 0 else bitLengthAux fuel (n / 2) + 1

/-- Python n.bit_length() for the sizes randbelow meets. -/
def pyBitLength (n : Nat) : Nat := bitLengthAux 64 n

/-- The rejection loop of Random._randbelow_with_getrandbits: draw k =
bit_length(n) bits until the draw is < n.  The loop is given fuel; CPython
loops unboundedly, and every concrete run below terminates well within the
fuel. -/
def randbelowLoop (k n : Nat) : Nat → PyRandom → Nat × PyRandom
  | 0, g => (0, g)
  | fuel + 1, g =>
      let r := getrandbits k g
      if r.1 < n then r else randbelowLoop k n fuel r.2

/-- Random._randbelow_with_getrandbits(n). -/
def randbelow (n : Nat) (g : PyRandom) : Nat × PyRandom :=
  randbelowLoop (pyBitLength n) n 64 g

/-- Python's parallel assignment x[i], x[j] = x[j], x[i] (both indices are in
range whenever shuffle performs it; out-of-range is a defensive no-op). -/
def listSwap {α : Type} (x : List α) (i j : Nat) : List α :=
  if h : i < x.length ∧ j < x.length then
    (x.set i (x.get ⟨j, h.2⟩)).set j (x.get ⟨i, h.1⟩)
  else x

/-- The body of random.shuffle: for i in reversed(range(1, len(x))):
j = _randbelow(i + 1); swap x[i], x[j].  The first argument is the current
value of i; the loop stops once it reaches 0. -/
def shuffleLoop {α : Type} : Nat → List α → PyRandom → List α × PyRandom
  | 0, x, g => (x, g)
  | c + 1, x, g =>
      let r := randbelow (c + 2) g
      shuffleLoop c (listSwap x (c + 1) r.1) r.2

/-- random.Random.shuffle(x). -/
def pyShuffle {α : Type} (x : List α) (g : PyRandom) : List α × PyRandom :=
  shuffleLoop (x.length - 1) x g

/-! ## DataShuffler.transform (src/neuraxle/steps/data.py)

The method mutates self (the seed increment) and can raise (unpacking
list(zip(*data)) into two variables fails when data is empty), so the
embedding returns the Option result together with the updated state. -/

/-- DataShuffler.transform: optionally increment the seed, zip the two input
sequences, shuffle the zipped list with random.Random(self.seed), then unzip.
Unpacking list(zip(*data)) raises (None here) when the zipped list is
empty. -/
def DataShuffler.transform {α β : Type} (s : DataShuffler) (input : List α × List β) :
    Option (List α × List β) × DataShuffler :=
  let s1 := if s.increment_seed_after_each_fit then { s with seed := s.seed + 1 } else s
  let data := input.1.zip input.2
  let shuffled := (pyShuffle data (mkPyRandom s1.seed)).1
  match shuffled with
  | [] => (none, s1)
  | _ :: _ => (some (shuffled.map Prod.fst, shuffled.map Prod.snd), s1)

/-! ## numpy arrays, as used by ZipData (src/neuraxle/steps/data.py)

An ndarray is modelled by its shape together with its indexing function;
get is meaningful on multi-indices pointwise below the shape (junk
elsewhere), which matches numpy's strided view semantics.  broadcast_to and
concatenate raise on incompatible shapes, hence return Option. -/

/-- Shallow model of a numpy ndarray. -/
structure NDArray (α : Type) where
  shape : List Nat
  get : List Nat → α

/-- np.expand_dims(a, axis=-1): a trailing length-1 axis; the element at a
multi-index is the element of a at the index without its last coordinate. -/
def expandDimsLast {α : Type} (a : NDArray α) : NDArray α :=
  { shape := a.shape ++ [1], get := fun idx => a.get idx.dropLast }

/-- The while loop of _zip_np_arrays:
while len(np_array_to_zip.shape) < len(np_array.shape):
np_array_to_zip = np.expand_dims(np_array_to_zip, axis=-1).
Each iteration grows the rank by one, so r units of fuel always suffice. -/
def expandWhile {α : Type} : Nat → Nat → NDArray α → NDArray α
  | 0, _, b => b
  | f + 1, r, b => if b.shape.length < r then expandWhile f r (expandDimsLast b) else b

/-- Whether np.broadcast_to(a, tgt) succeeds for a source of shape src:
src may not have more axes than tgt, and each source axis, aligned from the
right, must equal the target axis or be 1. -/
def broadcastCompat (src tgt : List Nat) : Bool :=
  decide (src.length ≤ tgt.length) &&
    ((src.zip (tgt.drop (tgt.length - src.length))).all fun p => p.1 == p.2 || p.1 == 1)

/-- np.broadcast_to(a, tgt): a read-only view of shape tgt; a length-1
source axis is read at coordinate 0 whatever the target coordinate
(stride-0 broadcasting). -/
def broadcast_to {α : Type} (a : NDArray α) (tgt : List Nat) : Option (NDArray α) :=
  if broadcastCompat a.shape tgt then
    some { shape := tgt,
           get := fun idx => a.get (List.zipWith (fun s i => if s = 1 then 0 else i)
                                a.shape (idx.drop (tgt.length - a.shape.length))) }
  else none

/-- np.concatenate((a, b), axis=-1): both arrays must have rank at least 1,
the same rank, and the same shape outside the last axis; along the last
axis the first block reads from a and the rest from b. -/
def concatLast {α : Type} (a b : NDArray α) : Option (NDArray α) :=
  match a.shape.getLast?, b.shape.getLast? with
  | some la, some lb =>
    if a.shape.dropLast = b.shape.dropLast then
      some { shape := a.shape.dropLast ++ [la + lb],
             get := fun idx =>
               if idx.getLastD 0 < la then a.get idx
               else b.get (idx.dropLast ++ [idx.getLastD 0 - la]) }
    else none
  | _, _ => none

/-! ## ZipData (src/neuraxle/steps/data.py) -/

/-- State of a ZipData step: the names of the sub data containers to
merge. -/
structure ZipData where
  data_sources : List String

/-- ZipData._zip_np_arrays: expand the auxiliary array with trailing
singleton axes until it has the rank of the primary array, broadcast it to
the primary array's leading shape with the auxiliary last axis, and
concatenate along the last axis.  np_array_to_zip.shape[-1] raises on a
rank-0 array (none). -/
def ZipData.zip_np_arrays {α : Type} (np_array np_array_to_zip : NDArray α) :
    Option (NDArray α) :=
  let b1 := expandWhile np_array.shape.length np_array.shape.length np_array_to_zip
  match b1.shape.getLast? with
  | none => none
  | some lb =>
      match broadcast_to b1 (np_array.shape.dropLast ++ [lb]) with
      | none => none
      | some b2 => concatLast np_array b2

/-- Modelled from the spec: a data container carries paired data-inputs and
expected-outputs sequences plus named sub-containers
(neuraxle.data_container.DataContainer lives outside this fragment). -/
inductive DataContainer (α : Type) where
  | mk (data_inputs : NDArray α) (expected_outputs : NDArray α)
      (sub_data_containers : List (String × DataContainer α))

/-- Modelled from the spec: the data_inputs field. -/
def DataContainer.data_inputs {α : Type} : DataContainer α → NDArray α
  | .mk di _ _ => di

/-- Modelled from the spec: the expected_outputs field. -/
def DataContainer.expected_outputs {α : Type} : DataContainer α → NDArray α
  | .mk _ eo _ => eo

/-- Modelled from the spec: the named sub-containers. -/
def DataContainer.sub_data_containers {α : Type} :
    DataContainer α → List (String × DataContainer α)
  | .mk _ _ subs => subs

/-- Modelled from the spec: DataContainer.set_data_inputs. -/
def DataContainer.set_data_inputs {α : Type} :
    DataContainer α → NDArray α → DataContainer α
  | .mk _ eo subs, di => .mk di eo subs

/-- Modelled from the spec: DataContainer.set_expected_outputs. -/
def DataContainer.set_expected_outputs {α : Type} :
    DataContainer α → NDArray α → DataContainer α
  | .mk di _ subs, eo => .mk di eo subs

/-- ZipData._zip_data_container: zip the container's data_inputs with the
sub-container's, store it, then likewise for expected_outputs; a numpy
error in either zip aborts (none). -/
def ZipData.zip_data_container {α : Type} (dc dcz : DataContainer α) :
    Option (DataContainer α) :=
  match ZipData.zip_np_arrays dc.data_inputs dcz.data_inputs with
  | none => none
  | some di =>
    let dc1 := dc.set_data_inputs di
    match ZipData.zip_np_arrays dc1.expected_outputs dcz.expected_outputs with
    | none => none
    | some eo => some (dc1.set_expected_outputs eo)

/-- The selection loop of _zip_sub_data_containers:
for name, sub in data_container.sub_data_containers:
if name in self.data_sources: append sub. -/
def ZipData.selectSubsLoop {α : Type} (sources : List String) :
    List (String × DataContainer α) → List (DataContainer α) → List (DataContainer α)
  | [], acc => acc
  | (name, sub) :: rest, acc =>
      ZipData.selectSubsLoop sources rest (if name ∈ sources then acc ++ [sub] else acc)

/-- The merging loop of _zip_sub_data_containers:
for data_container_to_zip in sub_data_containers_to_zip:
data_container = self._zip_data_container(data_container, data_container_to_zip). -/
def ZipData.zipFoldLoop {α : Type} :
    List (DataContainer α) → DataContainer α → Option (DataContainer α)
  | [], dc => some dc
  | d :: rest, dc =>
      match ZipData.zip_data_container dc d with
      | none => none
      | some dc1 => ZipData.zipFoldLoop rest dc1

/-- ZipData._zip_sub_data_containers: collect the sub containers whose name
is listed in data_sources, in order, then merge them one by one. -/
def ZipData.zip_sub_data_containers {α : Type} (z : ZipData) (dc : DataContainer α) :
    Option (DataContainer α) :=
  ZipData.zipFoldLoop (ZipData.selectSubsLoop z.data_sources dc.sub_data_containers []) dc

/-! ## Helper lemmas about the EpochRepeater loops, and claims C1, C8, C5 -/

theorem fitLoop_eq_iterate {W I O : Type} (f : W → I → O → W) (di : I) (eo : O)
    (n : Nat) (w : W) : fitLoop f di eo n w = (fun x => f x di eo)^[n] w := by
  induction n generalizing w with
  | zero => rfl
  | succ n ih => rw [fitLoop, Function.iterate_succ_apply, ih]

theorem fitLoop_count (di eo : Nat) (n w : Nat) :
    fitLoop (fun c _ _ => c + 1) di eo n w = w + n := by
  induction n generalizing w with
  | zero => rfl
  | succ n ih => rw [fitLoop, ih]; omega

theorem handleFitLoop_count (dc ctx : Nat) (n w : Nat) :
    handleFitLoop (fun c _ _ => c + 1) id dc ctx n w = w + n := by
  induction n generalizing w with
  | zero => rfl
  | succ n ih => rw [handleFitLoop, ih]; omega

theorem get_epochs_eq {W : Type} (s : EpochRepeater W) :
    s.get_epochs = if s.is_train || s.repeat_in_test_mode then 1 else s.epochs := by
  unfold EpochRepeater.get_epochs EpochRepeater.should_repeat_fit
  cases h : s.is_train <;> simp [h]

/-! ## Claim C1 -/

/-- C1: the claim that EpochRepeater.fit always invokes the wrapped fit
exactly epochs times regardless of train/test mode is false: with epochs = 3
in train mode, a counting wrapped step is fitted exactly once, not 3 times. -/
theorem c1_counterexample :
    (EpochRepeater.fit (fun c _ _ => c + 1) 0 0
      { wrapped := 0, epochs := 3, fit_only := false,
        repeat_in_test_mode := false, is_train := true }).wrapped = 1 ∧
    ¬ (EpochRepeater.fit (fun c _ _ => c + 1) 0 0
      { wrapped := 0, epochs := 3, fit_only := false,
        repeat_in_test_mode := false, is_train := true }).wrapped = 3 := by
  constructor <;> decide

/-- C1 (amended): EpochRepeater.fit applies the wrapped step's fit, always on
the same data, exactly _get_epochs() times — that is epochs times only in
test mode with repeat_in_test_mode = False, and exactly once when is_train
or repeat_in_test_mode holds — leaving every other field of the repeater
unchanged (the Python method returns self). -/
theorem c1_amended_fit_repeats {W I O : Type} (s : EpochRepeater W)
    (f : W → I → O → W) (di : I) (eo : O) :
    s.fit f di eo = { s with wrapped := (fun w => f w di eo)^[s.get_epochs] s.wrapped } ∧
    s.get_epochs = (if s.is_train || s.repeat_in_test_mode then 1 else s.epochs) := by
  refine ⟨?_, get_epochs_eq s⟩
  unfold EpochRepeater.fit
  rw [fitLoop_eq_iterate]

/-! ## Claim C8 -/

/-- C8: _get_epochs returns 1 in train mode and the constructor's epochs in
test mode with repeat_in_test_mode = False; consequently fit repeats the
wrapped fit _get_epochs() times (once in train mode, epochs times in test
mode under the default repeat_in_test_mode = False). -/
theorem c8_get_epochs_mode {W I O : Type} (s : EpochRepeater W)
    (f : W → I → O → W) (di : I) (eo : O) :
    (s.is_train = true → s.get_epochs = 1) ∧
    (s.is_train = false → s.repeat_in_test_mode = false → s.get_epochs = s.epochs) ∧
    (s.fit f di eo).wrapped = (fun w => f w di eo)^[s.get_epochs] s.wrapped := by
  refine ⟨?_, ?_, ?_⟩
  · intro h; rw [get_epochs_eq, h]; rfl
  · intro h1 h2; rw [get_epochs_eq, h1, h2]; rfl
  · unfold EpochRepeater.fit
    rw [fitLoop_eq_iterate]

/-- Witness for C8 at concrete repeaters: in train mode _get_epochs is 1,
in test mode with repeat_in_test_mode = False it is the stored epochs. -/
theorem c8_witness :
    ({ wrapped := 0, epochs := 5, fit_only := false, repeat_in_test_mode := false,
       is_train := true } : EpochRepeater Nat).get_epochs = 1 ∧
    ({ wrapped := 0, epochs := 5, fit_only := false, repeat_in_test_mode := false,
       is_train := false } : EpochRepeater Nat).get_epochs = 5 := by
  refine ⟨?_, ?_⟩
  · exact (c8_get_epochs_mode
      ({ wrapped := 0, epochs := 5, fit_only := false, repeat_in_test_mode := false,
         is_train := true } : EpochRepeater Nat) (fun c _ _ => c + 1) 0 0).1 rfl
  · exact (c8_get_epochs_mode
      ({ wrapped := 0, epochs := 5, fit_only := false, repeat_in_test_mode := false,
         is_train := false } : EpochRepeater Nat) (fun c _ _ => c + 1) 0 0).2.1 rfl rfl

/-! ## Claim C5 -/

/-- C5: the two fit-transform code paths are not equivalent: with epochs = 3
in test mode (repeat_in_test_mode = False, fit_only = False), fit_transform
fits a counting wrapped step 3 times before the final fit_transform call,
while _fit_transform_data_container fits it only 2 times. -/
theorem c5_counterexample :
    (EpochRepeater.fit_transform (fun c _ _ => c + 1) (fun c _ _ => (c, c)) 0 0
      { wrapped := 0, epochs := 3, fit_only := false,
        repeat_in_test_mode := false, is_train := false }).2 = 3 ∧
    (EpochRepeater.fit_transform_data_container (fun c _ _ => c + 1) (fun c _ _ => (c, c))
      id 0 0
      { wrapped := 0, epochs := 3, fit_only := false,
        repeat_in_test_mode := false, is_train := false }).2 = 2 ∧
    (3 : Nat) ≠ 2 := by
  refine ⟨by decide, by decide, by decide⟩

/-- C5 (amended): unless fit_only is set, fit_transform performs the wrapped
fit _get_epochs() times before the final wrapped fit_transform, whereas
_fit_transform_data_container performs it epochs - 1 times; the two paths
agree only when _get_epochs() = epochs - 1 (with fit_only both perform
none).  Counted here with a wrapped step whose fit increments a counter and
whose fit_transform outputs the counter. -/
theorem c5_amended_fit_counts (s : EpochRepeater Nat) :
    (EpochRepeater.fit_transform (fun c _ _ => c + 1) (fun c _ _ => (c, c)) 0 0 s).2 =
      s.wrapped + (if s.fit_only then 0 else s.get_epochs) ∧
    (EpochRepeater.fit_transform_data_container (fun c _ _ => c + 1) (fun c _ _ => (c, c))
      id 0 0 s).2 = s.wrapped + (if s.fit_only then 0 else s.epochs - 1) := by
  constructor
  · unfold EpochRepeater.fit_transform
    cases h : s.fit_only <;> simp [h, fitLoop_count]
  · unfold EpochRepeater.fit_transform_data_container
    cases h : s.fit_only <;> simp [h, handleFitLoop_count]

/-! ## Claim C7 -/

/-- C7: TrainShuffled(wrapped, seed) is a pipeline of exactly two stages, in
order: a TrainOnlyWrapper containing a DataShuffler constructed with that
seed (hence storing seed, or 42 for None, with the default incrementing
flag), followed by the wrapped step. -/
theorem c7_trainShuffled_two_stages {α : Type} (w : α) (seed : Option Nat) :
    (TrainShuffled w seed).steps =
      [PipeStep.trainOnlyWrapper (PipeStep.dataShufflerStep
          { seed := seed.getD 42, increment_seed_after_each_fit := true }),
       PipeStep.wrappedStep w] := by
  cases seed <;> rfl

/-! ## Claim C10 -/

/-- C10: a DataShuffler constructed with seed None is identical (same stored
state, hence identical behaviour) to one constructed with seed 42, for
either value of the incrementing flag. -/
theorem c10_none_seed_is_42 (incr : Bool) :
    DataShuffler.init none incr = DataShuffler.init (some 42) incr := rfl

/-! ## Helper lemmas about the shuffle: permutation and map commutation -/

theorem cons_set_perm {α : Type} : ∀ (t : List α) (m : Nat) (hm : m < t.length) (a : α),
    List.Perm (t.get ⟨m, hm⟩ :: t.set m a) (a :: t)
  | b :: t', 0, _, a => List.Perm.swap a b t'
  | b :: t', m + 1, hm, a => by
    have hm' : m < t'.length := by simpa using hm
    have h1 : (b :: t').get ⟨m + 1, hm⟩ :: (b :: t').set (m + 1) a
        = t'.get ⟨m, hm'⟩ :: b :: t'.set m a := by simp
    rw [h1]
    exact (List.Perm.swap _ _ _).trans
      (((cons_set_perm t' m hm' a).cons b).trans (List.Perm.swap _ _ _))

theorem set_set_perm {α : Type} : ∀ (l : List α) (i j : Nat) (hi : i < l.length) (hj : j < l.length),
    List.Perm ((l.set i (l.get ⟨j, hj⟩)).set j (l.get ⟨i, hi⟩)) l
  | a :: t, 0, 0, _, _ => List.Perm.refl _
  | a :: t, 0, j + 1, hi, hj => by
    have hj' : j < t.length := by simpa using hj
    have h1 : ((a :: t).set 0 ((a :: t).get ⟨j + 1, hj⟩)).set (j + 1) ((a :: t).get ⟨0, hi⟩)
        = t.get ⟨j, hj'⟩ :: t.set j a := by simp
    rw [h1]
    exact cons_set_perm t j hj' a
  | a :: t, i + 1, 0, hi, hj => by
    have hi' : i < t.length := by simpa using hi
    have h1 : ((a :: t).set (i + 1) ((a :: t).get ⟨0, hj⟩)).set 0 ((a :: t).get ⟨i + 1, hi⟩)
        = t.get ⟨i, hi'⟩ :: t.set i a := by simp
    rw [h1]
    exact cons_set_perm t i hi' a
  | a :: t, i + 1, j + 1, hi, hj => by
    have hi' : i < t.length := by simpa using hi
    have hj' : j < t.length := by simpa using hj
    have h1 : ((a :: t).set (i + 1) ((a :: t).get ⟨j + 1, hj⟩)).set (j + 1) ((a :: t).get ⟨i + 1, hi⟩)
        = a :: (t.set i (t.get ⟨j, hj'⟩)).set j (t.get ⟨i, hi'⟩) := by simp
    rw [h1]
    exact (set_set_perm t i j hi' hj').cons a

theorem listSwap_perm {α : Type} (x : List α) (i j : Nat) : List.Perm (listSwap x i j) x := by
  unfold listSwap
  split
  · next h => exact set_set_perm x i j h.1 h.2
  · exact List.Perm.refl x

theorem shuffleLoop_perm {α : Type} : ∀ (c : Nat) (x : List α) (g : PyRandom),
    List.Perm (shuffleLoop c x g).1 x
  | 0, _, _ => List.Perm.refl _
  | c + 1, x, g => by
    rw [shuffleLoop]
    exact (shuffleLoop_perm c _ _).trans (listSwap_perm x (c + 1) _)

theorem listSwap_map {α β : Type} (f : α → β) (x : List α) (i j : Nat) :
    listSwap (x.map f) i j = (listSwap x i j).map f := by
  unfold listSwap
  by_cases h : i < x.length ∧ j < x.length
  · rw [dif_pos (by simpa using h), dif_pos h]
    simp [List.get_eq_getElem]
  · rw [dif_neg (by simpa using h), dif_neg h]

theorem shuffleLoop_map {α β : Type} (f : α → β) : ∀ (c : Nat) (x : List α) (g : PyRandom),
    (shuffleLoop c (x.map f) g).1 = ((shuffleLoop c x g).1).map f
  | 0, _, _ => rfl
  | c + 1, x, g => by
    rw [shuffleLoop, shuffleLoop, listSwap_map]
    exact shuffleLoop_map f c _ _

theorem pyShuffle_length {α : Type} (x : List α) (g : PyRandom) :
    (pyShuffle x g).1.length = x.length :=
  (shuffleLoop_perm _ x g).length_eq

theorem pyShuffle_map {α β : Type} (f : α → β) (x : List α) (g : PyRandom) :
    (pyShuffle (x.map f) g).1 = ((pyShuffle x g).1).map f := by
  unfold pyShuffle
  rw [List.length_map]
  exact shuffleLoop_map f (x.length - 1) x g

theorem transform_fst {α β : Type} (s : DataShuffler) (di : List α) (eo : List β) :
    (s.transform (di, eo)).1 =
      (fun sh : List (α × β) =>
        if sh.isEmpty then none else some (sh.map Prod.fst, sh.map Prod.snd))
      ((pyShuffle (di.zip eo)
          (mkPyRandom (if s.increment_seed_after_each_fit then s.seed + 1 else s.seed))).1) := by
  unfold DataShuffler.transform
  cases hb : s.increment_seed_after_each_fit
  · simp only [hb, Bool.false_eq_true, if_false]
    rcases hy : (pyShuffle (di.zip eo) (mkPyRandom s.seed)).1 with _ | ⟨q, t⟩ <;>
      simp [hy]
  · simp only [hb, if_true]
    rcases hx : (pyShuffle (di.zip eo) (mkPyRandom (s.seed + 1))).1 with _ | ⟨p, r⟩ <;>
      simp [hx]

/-! ## Claims C2, C9 about DataShuffler.transform, and the remaining witnesses -/

set_option maxHeartbeats 4000000 in
/-- C2: the claim that two successive transform calls on the same instance
and input agree is false for the default increment_seed_after_each_fit=True:
a DataShuffler constructed with seed 42 shuffles [0,1] differently on the
first call (stored seed becomes 43) and on the second (44). -/
theorem c2_counterexample :
    ((DataShuffler.init (some 42) true).transform (([0, 1] : List Nat), ([0, 1] : List Nat))).1 ≠
    ((((DataShuffler.init (some 42) true).transform
        (([0, 1] : List Nat), ([0, 1] : List Nat))).2).transform
        (([0, 1] : List Nat), ([0, 1] : List Nat))).1 := by
  decide

/-- C2 (amended): the shuffle is a function of the stored seed at call time
and the input only; with increment_seed_after_each_fit = False the state is
unchanged by transform and two successive calls on the same instance and
input return identical output.  With the default True the stored seed is
incremented before every shuffle, so successive calls use successive
seeds. -/
theorem c2_amended_deterministic_without_increment {α β : Type} (s : DataShuffler)
    (h : s.increment_seed_after_each_fit = false) (input : List α × List β) :
    (s.transform input).2 = s ∧
    ((s.transform input).2.transform input).1 = (s.transform input).1 := by
  have h2 : (s.transform input).2 = s := by
    unfold DataShuffler.transform
    rw [h]
    rcases hy : (pyShuffle (input.1.zip input.2) (mkPyRandom s.seed)).1 with _ | ⟨q, t⟩ <;>
      simp [hy]
  exact ⟨h2, by rw [h2]⟩

/-- Witness for the amended C2 at a concrete non-incrementing shuffler. -/
theorem c2_witness :
    ((DataShuffler.init (some 7) false).transform (([1] : List Nat), ([2] : List Nat))).2 =
      DataShuffler.init (some 7) false ∧
    (((DataShuffler.init (some 7) false).transform
        (([1] : List Nat), ([2] : List Nat))).2.transform
        (([1] : List Nat), ([2] : List Nat))).1 =
      ((DataShuffler.init (some 7) false).transform (([1] : List Nat), ([2] : List Nat))).1 :=
  c2_amended_deterministic_without_increment (DataShuffler.init (some 7) false) rfl ([1], [2])

/-- C9: on the empty input pair, transform raises instead of returning an
empty shuffled pair: unpacking list(zip(*data)) fails for empty data, so the
embedded transform yields none. -/
theorem c9_transform_empty_raises {α β : Type} (s : DataShuffler) :
    (s.transform (([] : List α), ([] : List β))).1 = none := by
  unfold DataShuffler.transform
  cases h : s.increment_seed_after_each_fit <;> simp [h, pyShuffle, shuffleLoop]

/-! ## Claim C3 -/

/-- C3: on equal-length non-empty inputs, DataShuffler.transform returns two
lists of the input lengths related to the inputs by one common index
permutation: both sequences are permuted in lockstep, preserving the pairing
between each data input and its expected output. -/
theorem c3_transform_lockstep_permutation {α β : Type} (s : DataShuffler) (di : List α) (eo : List β)
    (hlen : di.length = eo.length) (hne : di ≠ []) :
    ∃ (out1 : List α) (out2 : List β),
      (s.transform (di, eo)).1 = some (out1, out2) ∧
      out1.length = di.length ∧ out2.length = eo.length ∧
      ∃ π : Fin di.length → Fin di.length, Function.Bijective π ∧
        ∀ i : Fin di.length, out1[i.val]? = di[(π i).val]? ∧ out2[i.val]? = eo[(π i).val]? := by
  have hzlen : (di.zip eo).length = di.length := by
    rw [List.length_zip, hlen, Nat.min_self]
  set g := mkPyRandom (if s.increment_seed_after_each_fit then s.seed + 1 else s.seed) with hgdef
  set z := di.zip eo with hzdef
  set sh := (pyShuffle z g).1 with hshdef
  have hshlen : sh.length = di.length := by rw [hshdef, pyShuffle_length, hzlen]
  have hshne : sh.isEmpty = false := by
    rcases hs : sh with _ | ⟨a, t⟩
    · exfalso
      apply hne
      apply List.eq_nil_of_length_eq_zero
      rw [← hshlen, hs]
      rfl
    · rfl
  have hout : (s.transform (di, eo)).1 = some (sh.map Prod.fst, sh.map Prod.snd) := by
    rw [transform_fst, ← hgdef, ← hzdef, ← hshdef]
    simp only [hshne, Bool.false_eq_true, if_false]
  refine ⟨sh.map Prod.fst, sh.map Prod.snd, hout, by simp [hshlen], by simp [hshlen, hlen], ?_⟩
  have hmapz : sh = ((pyShuffle (List.finRange z.length) g).1).map z.get := by
    conv_lhs => rw [hshdef]
    rw [show pyShuffle z g = pyShuffle ((List.finRange z.length).map z.get) g by
      rw [List.finRange_map_get]]
    rw [pyShuffle_map]
  set idx := (pyShuffle (List.finRange z.length) g).1 with hidxdef
  have hperm : List.Perm idx (List.finRange z.length) := by
    rw [hidxdef]
    exact shuffleLoop_perm _ _ _
  have hidxlen : idx.length = z.length := by simpa using hperm.length_eq
  have hnodup : idx.Nodup := hperm.nodup_iff.mpr (List.nodup_finRange _)
  have hinj : Function.Injective idx.get := List.nodup_iff_injective_get.mp hnodup
  have hdz : di.length = idx.length := by rw [hidxlen, hzlen]
  refine ⟨fun i => Fin.cast hzlen (idx.get (Fin.cast hdz i)), ?_, ?_⟩
  · apply Finite.injective_iff_bijective.mp
    intro a b hab
    have hab' : Fin.cast hzlen (idx.get (Fin.cast hdz a))
        = Fin.cast hzlen (idx.get (Fin.cast hdz b)) := hab
    have h1 : idx.get (Fin.cast hdz a) = idx.get (Fin.cast hdz b) := by
      apply Fin.ext
      have h0 := congrArg Fin.val hab'
      simpa using h0
    have h2 : Fin.cast hdz a = Fin.cast hdz b := hinj h1
    apply Fin.ext
    have h0 := congrArg Fin.val h2
    simpa using h0
  · intro i
    have hvi : i.val < idx.length := by rw [← hdz]; exact i.isLt
    have hk : (idx.get (Fin.cast hdz i)).val < z.length := (idx.get (Fin.cast hdz i)).isLt
    have hkd : (idx.get (Fin.cast hdz i)).val < di.length := lt_of_lt_of_eq hk hzlen
    have hke : (idx.get (Fin.cast hdz i)).val < eo.length := lt_of_lt_of_eq hkd hlen
    have hsh_i : sh[i.val]? = some (z.get (idx.get (Fin.cast hdz i))) := by
      rw [hmapz, List.getElem?_map, List.getElem?_eq_getElem hvi]
      rfl
    have hz_get : z.get (idx.get (Fin.cast hdz i)) =
        (di.get ⟨_, hkd⟩, eo.get ⟨_, hke⟩) := by
      show (di.zip eo).get (idx.get (Fin.cast hdz i)) = _
      simp [List.get_eq_getElem, List.getElem_zip]
    constructor
    · simp only [Fin.coe_cast]
      rw [List.getElem?_map, hsh_i, hz_get]
      simp only [Option.map_some']
      rw [List.getElem?_eq_getElem hkd]
      simp [List.get_eq_getElem]
    · simp only [Fin.coe_cast]
      rw [List.getElem?_map, hsh_i, hz_get]
      simp only [Option.map_some']
      rw [List.getElem?_eq_getElem hke]
      simp [List.get_eq_getElem]

/-! ## Claim C4 -/

theorem expandWhile_shape {α : Type} : ∀ (f r : Nat) (b : NDArray α),
    (expandWhile f r b).shape = b.shape ++ List.replicate (min f (r - b.shape.length)) 1
  | 0, r, b => by simp [expandWhile]
  | f + 1, r, b => by
    rw [expandWhile]
    by_cases h : b.shape.length < r
    · rw [if_pos h, expandWhile_shape f r (expandDimsLast b)]
      have e1 : (expandDimsLast b).shape = b.shape ++ [1] := rfl
      have e2 : (b.shape ++ [1]).length = b.shape.length + 1 := by simp
      rw [e1, e2, List.append_assoc]
      congr 1
      have h2 : min (f + 1) (r - b.shape.length) = min f (r - (b.shape.length + 1)) + 1 := by
        omega
      rw [h2, List.replicate_succ]
      rfl
    · rw [if_neg h]
      have h0 : r - b.shape.length = 0 := by omega
      simp [h0]

/-- C4: when the primary array has rank at least 1, the auxiliary array has
rank at most that, and the expanded auxiliary shape broadcasts against the
primary leading dimensions, _zip_np_arrays expands the auxiliary array with
trailing singleton axes to the primary rank, broadcasts it, and concatenates
along the last axis; the result's shape is A.shape[:-1] + [A.shape[-1] +
Bexp.shape[-1]] and its first A.shape[-1] entries along the last axis are
exactly A. -/
theorem c4_zip_np_arrays {α : Type} (a b : NDArray α)
    (hr : 1 ≤ a.shape.length) (hrb : b.shape.length ≤ a.shape.length)
    (hcompat : ∀ i, i + 1 < a.shape.length →
      (expandWhile a.shape.length a.shape.length b).shape.getD i 1 = 1 ∨
      (expandWhile a.shape.length a.shape.length b).shape.getD i 1 = a.shape.getD i 1) :
    ∃ c : NDArray α, ZipData.zip_np_arrays a b = some c ∧
      c.shape = a.shape.dropLast ++
        [a.shape.getLastD 0 + (expandWhile a.shape.length a.shape.length b).shape.getLastD 0] ∧
      (∃ b2 : NDArray α,
        broadcast_to (expandWhile a.shape.length a.shape.length b)
          (a.shape.dropLast ++
            [(expandWhile a.shape.length a.shape.length b).shape.getLastD 0]) = some b2 ∧
        concatLast a b2 = some c) ∧
      ∀ idx : List Nat, idx.getLastD 0 < a.shape.getLastD 0 → c.get idx = a.get idx := by
  set bexp := expandWhile a.shape.length a.shape.length b with hbexp
  have hbshape : bexp.shape = b.shape ++ List.replicate (a.shape.length - b.shape.length) 1 := by
    rw [hbexp, expandWhile_shape]
    congr 2
    omega
  have hblen : bexp.shape.length = a.shape.length := by
    rw [hbshape]
    simp
    omega
  have hbne : bexp.shape ≠ [] := by
    intro h0
    rw [h0] at hblen
    simp at hblen
    omega
  have hane : a.shape ≠ [] := by
    intro h0
    rw [h0] at hr
    simp at hr
  set lb := bexp.shape.getLastD 0 with hlb
  have hlbs : bexp.shape.getLast? = some lb := by
    rw [hlb, List.getLastD_eq_getLast?]
    cases h0 : bexp.shape.getLast? with
    | none => exact absurd (List.getLast?_eq_none_iff.mp h0) hbne
    | some x => rfl
  set la := a.shape.getLastD 0 with hla
  have hlas : a.shape.getLast? = some la := by
    rw [hla, List.getLastD_eq_getLast?]
    cases h0 : a.shape.getLast? with
    | none => exact absurd (List.getLast?_eq_none_iff.mp h0) hane
    | some x => rfl
  have hlens : (a.shape.dropLast ++ [lb]).length = bexp.shape.length := by
    simp [hblen]
    omega
  have hsplit : bexp.shape = bexp.shape.dropLast ++ [lb] :=
    (List.dropLast_append_getLast? lb (Option.mem_def.mpr hlbs)).symm
  have hdllen : bexp.shape.dropLast.length = a.shape.dropLast.length := by
    simp [hblen]
  have hcompatT : broadcastCompat bexp.shape (a.shape.dropLast ++ [lb]) = true := by
    unfold broadcastCompat
    rw [Bool.and_eq_true]
    constructor
    · rw [decide_eq_true_eq]
      omega
    · have h0 : (a.shape.dropLast ++ [lb]).length - bexp.shape.length = 0 := by omega
      rw [h0, List.drop_zero]
      conv_lhs => rw [hsplit]
      rw [List.zip_append hdllen, List.all_append, Bool.and_eq_true]
      refine ⟨?_, by simp⟩
      apply List.all_eq_true.mpr
      intro x hx
      obtain ⟨n, hn, hxn⟩ := List.mem_iff_getElem.mp hx
      have hlzip : (bexp.shape.dropLast.zip a.shape.dropLast).length
          = a.shape.length - 1 := by
        simp [List.length_zip, hdllen]
      have hn1 : n + 1 < a.shape.length := by omega
      have hnb : n < bexp.shape.length := by omega
      have hna : n < a.shape.length := by omega
      have hndb : n < bexp.shape.dropLast.length := by simp [hblen]; omega
      have hnda : n < a.shape.dropLast.length := by simp; omega
      have hxval : x = (bexp.shape[n], a.shape[n]) := by
        rw [← hxn, List.getElem_zip]
        simp [List.getElem_dropLast]
      rw [hxval]
      have hgetd1 : bexp.shape.getD n 1 = bexp.shape[n] := List.getD_eq_getElem _ 1 hnb
      have hgetd2 : a.shape.getD n 1 = a.shape[n] := List.getD_eq_getElem _ 1 hna
      rcases hcompat n hn1 with hc | hc <;> rw [hgetd1] at hc
      · rw [hc]
        simp
      · rw [hgetd2] at hc
        rw [hc]
        simp
  obtain ⟨bb, hbc⟩ : ∃ bb, broadcast_to bexp (a.shape.dropLast ++ [lb]) = some bb := by
    rw [broadcast_to, if_pos hcompatT]
    exact ⟨_, rfl⟩
  have hbbshape : bb.shape = a.shape.dropLast ++ [lb] := by
    rw [broadcast_to, if_pos hcompatT] at hbc
    injection hbc with h0
    rw [← h0]
  have hgl2 : bb.shape.getLast? = some lb := by
    rw [hbbshape, List.getLast?_concat]
  have hdl2 : bb.shape.dropLast = a.shape.dropLast := by
    rw [hbbshape, List.dropLast_concat]
  have hcc : concatLast a bb = some
      { shape := a.shape.dropLast ++ [la + lb],
        get := fun idx =>
          if idx.getLastD 0 < la then a.get idx
          else bb.get (idx.dropLast ++ [idx.getLastD 0 - la]) } := by
    unfold concatLast
    rw [hlas, hgl2]
    show (if a.shape.dropLast = bb.shape.dropLast then _ else none) = _
    rw [if_pos hdl2.symm]
  have hzip : ZipData.zip_np_arrays a b = concatLast a bb := by
    show (match bexp.shape.getLast? with
          | none => none
          | some lb =>
            match broadcast_to bexp (a.shape.dropLast ++ [lb]) with
            | none => none
            | some b2 => concatLast a b2) = concatLast a bb
    rw [hlbs]
    show (match broadcast_to bexp (a.shape.dropLast ++ [lb]) with
          | none => none
          | some b2 => concatLast a b2) = concatLast a bb
    rw [hbc]
  refine ⟨{ shape := a.shape.dropLast ++ [la + lb],
            get := fun idx =>
              if idx.getLastD 0 < la then a.get idx
              else bb.get (idx.dropLast ++ [idx.getLastD 0 - la]) },
          by rw [hzip, hcc], rfl, ⟨bb, hbc, hcc⟩, ?_⟩
  intro idx hidx
  show (if idx.getLastD 0 < la then a.get idx
        else bb.get (idx.dropLast ++ [idx.getLastD 0 - la])) = a.get idx
  rw [if_pos hidx]

/-! ## Claim C6 -/

theorem selectSubsLoop_eq {α : Type} (sources : List String) :
    ∀ (l : List (String × DataContainer α)) (acc : List (DataContainer α)),
    ZipData.selectSubsLoop sources l acc =
      acc ++ (l.filter (fun p => decide (p.1 ∈ sources))).map Prod.snd
  | [], acc => by simp [ZipData.selectSubsLoop]
  | (name, sub) :: rest, acc => by
    rw [ZipData.selectSubsLoop]
    by_cases h : name ∈ sources
    · rw [if_pos h, selectSubsLoop_eq sources rest,
        List.filter_cons_of_pos (by simpa using h)]
      simp
    · rw [if_neg h, selectSubsLoop_eq sources rest,
        List.filter_cons_of_neg (by simpa using h)]

theorem zipFoldLoop_eq_foldlM {α : Type} :
    ∀ (l : List (DataContainer α)) (dc : DataContainer α),
    ZipData.zipFoldLoop l dc = l.foldlM (fun c d => ZipData.zip_data_container c d) dc
  | [], _ => rfl
  | d :: rest, dc => by
    rw [ZipData.zipFoldLoop, List.foldlM_cons]
    cases h : ZipData.zip_data_container dc d with
    | none => rfl
    | some dc1 => exact zipFoldLoop_eq_foldlM rest dc1

theorem zip_data_container_mk {α : Type} (di eo : NDArray α)
    (subs : List (String × DataContainer α)) (d : DataContainer α) :
    ZipData.zip_data_container (.mk di eo subs) d =
      Option.map (fun p : NDArray α × NDArray α => DataContainer.mk p.1 p.2 subs)
        (match ZipData.zip_np_arrays di d.data_inputs,
               ZipData.zip_np_arrays eo d.expected_outputs with
         | some a, some b => some (a, b)
         | _, _ => none) := by
  obtain ⟨ddi, deo, dsubs⟩ := d
  unfold ZipData.zip_data_container
  simp only [DataContainer.data_inputs, DataContainer.expected_outputs,
    DataContainer.set_data_inputs, DataContainer.set_expected_outputs]
  cases h1 : ZipData.zip_np_arrays di ddi <;>
    cases h2 : ZipData.zip_np_arrays eo deo <;>
    simp [h1, h2]

theorem zip_data_container_subs {α : Type} (dc dcz dc1 : DataContainer α)
    (h : ZipData.zip_data_container dc dcz = some dc1) :
    dc1.sub_data_containers = dc.sub_data_containers := by
  obtain ⟨di0, eo0, subs0⟩ := dc
  rw [zip_data_container_mk di0 eo0 subs0 dcz] at h
  obtain ⟨p, -, hp2⟩ := Option.map_eq_some'.mp h
  rw [← hp2]
  rfl

theorem zipFoldLoop_subs {α : Type} :
    ∀ (l : List (DataContainer α)) (dc dc1 : DataContainer α),
    ZipData.zipFoldLoop l dc = some dc1 → dc1.sub_data_containers = dc.sub_data_containers
  | [], dc, dc1, h => by
    injection h with h
    rw [← h]
  | d :: rest, dc, dc1, h => by
    rw [ZipData.zipFoldLoop] at h
    cases hz : ZipData.zip_data_container dc d with
    | none => rw [hz] at h; cases h
    | some dcm =>
      rw [hz] at h
      rw [zipFoldLoop_subs rest dcm dc1 h, zip_data_container_subs dc d dcm hz]

theorem zipFoldLoop_subs_param {α : Type} :
    ∀ (l : List (DataContainer α)) (di eo : NDArray α)
      (s1 s2 : List (String × DataContainer α)),
    (ZipData.zipFoldLoop l (.mk di eo s1)).map DataContainer.data_inputs =
      (ZipData.zipFoldLoop l (.mk di eo s2)).map DataContainer.data_inputs ∧
    (ZipData.zipFoldLoop l (.mk di eo s1)).map DataContainer.expected_outputs =
      (ZipData.zipFoldLoop l (.mk di eo s2)).map DataContainer.expected_outputs
  | [], di, eo, s1, s2 => by constructor <;> rfl
  | d :: rest, di, eo, s1, s2 => by
    rw [ZipData.zipFoldLoop, ZipData.zipFoldLoop,
      zip_data_container_mk di eo s1 d, zip_data_container_mk di eo s2 d]
    cases hm : (match ZipData.zip_np_arrays di d.data_inputs,
               ZipData.zip_np_arrays eo d.expected_outputs with
         | some a, some b => some (a, b)
         | _, _ => none : Option (NDArray α × NDArray α)) with
    | none => constructor <;> rfl
    | some p => exact zipFoldLoop_subs_param rest p.1 p.2 s1 s2

/-- C6: _zip_sub_data_containers merges exactly the sub containers whose
name is in data_sources, in the order they appear, by folding
_zip_data_container over them (first conjunct); the sub_data_containers
collection itself is never modified (second conjunct); and a sub container
whose name is not selected has no effect on the resulting data_inputs and
expected_outputs (last two conjuncts). -/
theorem c6_zip_sub_data_containers_frame {α : Type} (z : ZipData) (dc : DataContainer α)
    (di eo : NDArray α) (l1 l2 : List (String × DataContainer α)) (name : String)
    (sub : DataContainer α) (hname : name ∉ z.data_sources) :
    z.zip_sub_data_containers dc =
      ((dc.sub_data_containers.filter
          (fun p => decide (p.1 ∈ z.data_sources))).map Prod.snd).foldlM
        (fun c d => ZipData.zip_data_container c d) dc ∧
    (∀ dc1, z.zip_sub_data_containers dc = some dc1 →
        dc1.sub_data_containers = dc.sub_data_containers) ∧
    (z.zip_sub_data_containers (.mk di eo (l1 ++ (name, sub) :: l2))).map
        DataContainer.data_inputs =
      (z.zip_sub_data_containers (.mk di eo (l1 ++ l2))).map DataContainer.data_inputs ∧
    (z.zip_sub_data_containers (.mk di eo (l1 ++ (name, sub) :: l2))).map
        DataContainer.expected_outputs =
      (z.zip_sub_data_containers (.mk di eo (l1 ++ l2))).map
        DataContainer.expected_outputs := by
  have hsel : ∀ (subs : List (String × DataContainer α)),
      ZipData.selectSubsLoop z.data_sources subs [] =
        (subs.filter (fun p => decide (p.1 ∈ z.data_sources))).map Prod.snd := by
    intro subs
    rw [selectSubsLoop_eq]
    rfl
  have hself : ZipData.selectSubsLoop z.data_sources (l1 ++ (name, sub) :: l2) [] =
      ZipData.selectSubsLoop z.data_sources (l1 ++ l2) [] := by
    rw [hsel, hsel, List.filter_append, List.filter_append,
      List.filter_cons_of_neg (by simpa using hname)]
  have e1 : (DataContainer.mk di eo (l1 ++ (name, sub) :: l2)).sub_data_containers
      = l1 ++ (name, sub) :: l2 := rfl
  have e2 : (DataContainer.mk di eo (l1 ++ l2)).sub_data_containers = l1 ++ l2 := rfl
  refine ⟨?_, ?_, ?_, ?_⟩
  · unfold ZipData.zip_sub_data_containers
    rw [hsel, zipFoldLoop_eq_foldlM]
  · intro dc1 h
    unfold ZipData.zip_sub_data_containers at h
    exact zipFoldLoop_subs _ dc dc1 h
  · unfold ZipData.zip_sub_data_containers
    rw [e1, e2, hself]
    exact (zipFoldLoop_subs_param _ di eo _ _).1
  · unfold ZipData.zip_sub_data_containers
    rw [e1, e2, hself]
    exact (zipFoldLoop_subs_param _ di eo _ _).2

/-- Witness for C3 at a concrete shuffler and singleton input. -/
theorem c3_witness :
    ((DataShuffler.init (some 5) true).transform
      (([10] : List Nat), ([20] : List Nat))).1.isSome = true := by
  obtain ⟨o1, o2, hsome, -⟩ :=
    c3_transform_lockstep_permutation (DataShuffler.init (some 5) true)
      ([10] : List Nat) ([20] : List Nat) rfl (by decide)
  rw [hsome]
  rfl

/-- Witness for C4 at a 2x2 primary array and a length-2 auxiliary vector:
the zipped array has shape [2, 2 + 1]. -/
theorem c4_witness :
    (ZipData.zip_np_arrays
        { shape := [2, 2], get := fun idx => 10 * idx.headD 0 + idx.getLastD 0 }
        ({ shape := [2], get := fun idx => idx.headD 0 } : NDArray Nat)).map NDArray.shape
      = some [2, 2 + 1] := by
  obtain ⟨c, hc, hshape, -⟩ := c4_zip_np_arrays
    ({ shape := [2, 2], get := fun idx => 10 * idx.headD 0 + idx.getLastD 0 } : NDArray Nat)
    { shape := [2], get := fun idx => idx.headD 0 }
    (by decide) (by decide)
    (by
      intro i hi
      right
      have h2 : i + 1 < 2 := hi
      have h0 : i = 0 := by omega
      subst h0
      rfl)
  rw [hc, Option.map_some', hshape]
  rfl

/-- Witness for C6: a sub container with a non-selected name leaves the
resulting data_inputs unchanged, at a concrete container. -/
theorem c6_witness :
    (ZipData.zip_sub_data_containers { data_sources := ["a"] }
        (DataContainer.mk
          { shape := [1], get := fun _ => (0 : Nat) }
          { shape := [1], get := fun _ => 0 }
          [("b", DataContainer.mk { shape := [1], get := fun _ => 0 }
                  { shape := [1], get := fun _ => 0 } [])])).map DataContainer.data_inputs =
    (ZipData.zip_sub_data_containers { data_sources := ["a"] }
        (DataContainer.mk
          { shape := [1], get := fun _ => (0 : Nat) }
          { shape := [1], get := fun _ => 0 } [])).map DataContainer.data_inputs :=
  (c6_zip_sub_data_containers_frame { data_sources := ["a"] }
    (DataContainer.mk { shape := [1], get := fun _ => (0 : Nat) }
      { shape := [1], get := fun _ => 0 } [])
    { shape := [1], get := fun _ => (0 : Nat) }
    { shape := [1], get := fun _ => 0 }
    [] [] "b"
    (DataContainer.mk { shape := [1], get := fun _ => 0 }
      { shape := [1], get := fun _ => 0 } [])
    (by decide)).2.2.1

end Neuraxle
